import Mathlib

/-!
Verification development for the `py2cwl` CWL tool-descriptor builder
(`src/py2cwlwriter.py`).  The Python data model is shallowly embedded:
Python scalars, lists and dicts become the mutually inductive types
`JVal`/`JArr`/`JObj` (dicts are key-value sequences in insertion order),
Python objects become Lean structures whose `toDict` functions mirror
`__dict__`, and the in-place mutation performed by `clean_null_values` is
modelled by explicit state passing (the pure function returns the dict the
mutated reference holds afterwards).
-/

mutual

/-- A Python/JSON value as manipulated by the builder: `None`, strings,
integers, booleans, lists (`JArr`) and dicts (`JObj`). -/
inductive JVal where
  | null : JVal
  | str (s : String) : JVal
  | int (n : Int) : JVal
  | bool (b : Bool) : JVal
  | arr (xs : JArr) : JVal
  | obj (kvs : JObj) : JVal
  deriving Repr

/-- A Python list of values. -/
inductive JArr where
  | nil : JArr
  | cons (v : JVal) (rest : JArr) : JArr
  deriving Repr

/-- A Python dict, as a key-value sequence in insertion order. -/
inductive JObj where
  | nil : JObj
  | cons (k : String) (v : JVal) (rest : JObj) : JObj
  deriving Repr

end

mutual

/-- Decidable equality for `JVal` (written by hand: the mutual inductive
family defeats the automatic derivation). -/
def JVal.decEq : (a b : JVal) → Decidable (a = b)
  | JVal.null, JVal.null => isTrue rfl
  | JVal.str a, JVal.str b =>
      if h : a = b then isTrue (by rw [h]) else isFalse (by simp [h])
  | JVal.int a, JVal.int b =>
      if h : a = b then isTrue (by rw [h]) else isFalse (by simp [h])
  | JVal.bool a, JVal.bool b =>
      if h : a = b then isTrue (by rw [h]) else isFalse (by simp [h])
  | JVal.arr xs, JVal.arr ys =>
      match JArr.decEq xs ys with
      | isTrue h => isTrue (by rw [h])
      | isFalse h => isFalse (by simp [h])
  | JVal.obj xs, JVal.obj ys =>
      match JObj.decEq xs ys with
      | isTrue h => isTrue (by rw [h])
      | isFalse h => isFalse (by simp [h])
  | JVal.null, JVal.str _ => isFalse (fun h => JVal.noConfusion h)
  | JVal.null, JVal.int _ => isFalse (fun h => JVal.noConfusion h)
  | JVal.null, JVal.bool _ => isFalse (fun h => JVal.noConfusion h)
  | JVal.null, JVal.arr _ => isFalse (fun h => JVal.noConfusion h)
  | JVal.null, JVal.obj _ => isFalse (fun h => JVal.noConfusion h)
  | JVal.str _, JVal.null => isFalse (fun h => JVal.noConfusion h)
  | JVal.str _, JVal.int _ => isFalse (fun h => JVal.noConfusion h)
  | JVal.str _, JVal.bool _ => isFalse (fun h => JVal.noConfusion h)
  | JVal.str _, JVal.arr _ => isFalse (fun h => JVal.noConfusion h)
  | JVal.str _, JVal.obj _ => isFalse (fun h => JVal.noConfusion h)
  | JVal.int _, JVal.null => isFalse (fun h => JVal.noConfusion h)
  | JVal.int _, JVal.str _ => isFalse (fun h => JVal.noConfusion h)
  | JVal.int _, JVal.bool _ => isFalse (fun h => JVal.noConfusion h)
  | JVal.int _, JVal.arr _ => isFalse (fun h => JVal.noConfusion h)
  | JVal.int _, JVal.obj _ => isFalse (fun h => JVal.noConfusion h)
  | JVal.bool _, JVal.null => isFalse (fun h => JVal.noConfusion h)
  | JVal.bool _, JVal.str _ => isFalse (fun h => JVal.noConfusion h)
  | JVal.bool _, JVal.int _ => isFalse (fun h => JVal.noConfusion h)
  | JVal.bool _, JVal.arr _ => isFalse (fun h => JVal.noConfusion h)
  | JVal.bool _, JVal.obj _ => isFalse (fun h => JVal.noConfusion h)
  | JVal.arr _, JVal.null => isFalse (fun h => JVal.noConfusion h)
  | JVal.arr _, JVal.str _ => isFalse (fun h => JVal.noConfusion h)
  | JVal.arr _, JVal.int _ => isFalse (fun h => JVal.noConfusion h)
  | JVal.arr _, JVal.bool _ => isFalse (fun h => JVal.noConfusion h)
  | JVal.arr _, JVal.obj _ => isFalse (fun h => JVal.noConfusion h)
  | JVal.obj _, JVal.null => isFalse (fun h => JVal.noConfusion h)
  | JVal.obj _, JVal.str _ => isFalse (fun h => JVal.noConfusion h)
  | JVal.obj _, JVal.int _ => isFalse (fun h => JVal.noConfusion h)
  | JVal.obj _, JVal.bool _ => isFalse (fun h => JVal.noConfusion h)
  | JVal.obj _, JVal.arr _ => isFalse (fun h => JVal.noConfusion h)

/-- Decidable equality for `JArr`. -/
def JArr.decEq : (xs ys : JArr) → Decidable (xs = ys)
  | JArr.nil, JArr.nil => isTrue rfl
  | JArr.nil, JArr.cons _ _ => isFalse (fun h => JArr.noConfusion h)
  | JArr.cons _ _, JArr.nil => isFalse (fun h => JArr.noConfusion h)
  | JArr.cons x xs, JArr.cons y ys =>
      match JVal.decEq x y, JArr.decEq xs ys with
      | isTrue h1, isTrue h2 => isTrue (by rw [h1, h2])
      | isFalse h1, _ => isFalse (by simp [h1])
      | _, isFalse h2 => isFalse (by simp [h2])

/-- Decidable equality for `JObj`. -/
def JObj.decEq : (xs ys : JObj) → Decidable (xs = ys)
  | JObj.nil, JObj.nil => isTrue rfl
  | JObj.nil, JObj.cons _ _ _ => isFalse (fun h => JObj.noConfusion h)
  | JObj.cons _ _ _, JObj.nil => isFalse (fun h => JObj.noConfusion h)
  | JObj.cons k x xs, JObj.cons k2 y ys =>
      if hk : k = k2 then
        match JVal.decEq x y, JObj.decEq xs ys with
        | isTrue h1, isTrue h2 => isTrue (by rw [hk, h1, h2])
        | isFalse h1, _ => isFalse (by simp [h1])
        | _, isFalse h2 => isFalse (by simp [h2])
      else isFalse (by simp [hk])

end

instance : DecidableEq JVal := JVal.decEq

instance : DecidableEq JArr := JArr.decEq

instance : DecidableEq JObj := JObj.decEq

/-- Embed a plain list of values. -/
def JArr.ofList : List JVal → JArr
  | [] => JArr.nil
  | v :: rest => JArr.cons v (JArr.ofList rest)

/-- Embed a plain association list as a dict. -/
def JObj.ofList : List (String × JVal) → JObj
  | [] => JObj.nil
  | (k, v) :: rest => JObj.cons k v (JObj.ofList rest)

/-- Dict lookup (`d[key]`, first binding wins). -/
def JObj.lookup (key : String) : JObj → Option JVal
  | JObj.nil => none
  | JObj.cons k v rest => if k = key then some v else JObj.lookup key rest

/-- Embed an optional Python string argument (default `None`). -/
def optStr : Option String → JVal
  | none => JVal.null
  | some s => JVal.str s

/-- Embed an optional Python value argument (default `None`). -/
def optVal : Option JVal → JVal
  | none => JVal.null
  | some v => v

/-- Python truthiness (`if value:`) for the embedded values. -/
def pyTruthy : JVal → Bool
  | JVal.null => false
  | JVal.str s => !s.toList.isEmpty
  | JVal.int n => n != 0
  | JVal.bool b => b
  | JVal.arr (JArr.nil) => false
  | JVal.arr (JArr.cons _ _) => true
  | JVal.obj (JObj.nil) => false
  | JVal.obj (JObj.cons _ _ _) => true

/-- Decimal digit character, `48 + d` in ASCII. -/
def digChar (d : Nat) : Char := Char.ofNat (48 + d)

/-- Decimal rendering of a natural number with explicit fuel (the fuel
makes the recursion structural so the kernel can evaluate it; any fuel at
least the digit count gives the same answer). -/
def natDigitsF : Nat → Nat → List Char
  | 0, _ => []
  | Nat.succ f, n =>
      if n < 10 then [digChar n] else natDigitsF f (n / 10) ++ [digChar (n % 10)]

/-- Decimal rendering of a natural number, as Python/JSON print it. -/
def natDigits (n : Nat) : List Char := natDigitsF (n + 1) n

/-- Decimal rendering of an integer, as Python `str(int)` / JSON print it
(`Char.ofNat 45` is the minus sign). -/
def intRender (n : Int) : List Char :=
  if n < 0 then Char.ofNat 45 :: natDigits n.natAbs else natDigits n.toNat

/-- Python `str(value)` for the scalar values the builder passes to
`expression_check` (strings, ints, bools).  No claim classifies a
composite value, so the `str()` text of lists/dicts is not modelled. -/
def pyStr : JVal → String
  | JVal.null => "None"
  | JVal.str s => s
  | JVal.int n => String.mk (intRender n)
  | JVal.bool b => if b then "True" else "False"
  | JVal.arr _ => ""
  | JVal.obj _ => ""

/-- `v` is a Python scalar (string, number, boolean). -/
def JVal.isScalar : JVal → Bool
  | JVal.str _ => true
  | JVal.int _ => true
  | JVal.bool _ => true
  | _ => false

/-- `clean_null_values` (py2cwlwriter.py:211-215): deletes every key whose
value is `None` and recurses into dict-valued entries; values inside lists
are left untouched (the source recurses only on `isinstance(v, dict)`).
The Python function mutates and returns its argument; the pure model
returns the dict the caller's reference holds afterwards. -/
def cleanO : JObj → JObj
  | JObj.nil => JObj.nil
  | JObj.cons _ JVal.null rest => cleanO rest
  | JObj.cons k (JVal.obj o) rest => JObj.cons k (JVal.obj (cleanO o)) (cleanO rest)
  | JObj.cons k v rest => JObj.cons k v (cleanO rest)

/-- The effect of `clean_null_values` on one stored value: dicts are
cleaned recursively, everything else is unchanged. -/
def cleanVal : JVal → JVal
  | JVal.obj o => JVal.obj (cleanO o)
  | v => v

/-- A dict has no `None`-valued attribute, at its own level nor inside any
directly nested dict value (lists are not inspected, mirroring the reach
of `clean_null_values`). -/
def noNullAttrs : JObj → Bool
  | JObj.nil => true
  | JObj.cons _ JVal.null _ => false
  | JObj.cons _ (JVal.obj o) rest => noNullAttrs o && noNullAttrs rest
  | JObj.cons _ _ rest => noNullAttrs rest

example : cleanO (JObj.ofList [("a", JVal.null), ("b", JVal.int 0)])
    = JObj.ofList [("b", JVal.int 0)] := by decide

example :
    cleanO (JObj.ofList [("a", JVal.obj (JObj.ofList [("x", JVal.null), ("y", JVal.arr JArr.nil)])),
        ("b", JVal.null)])
      = JObj.ofList [("a", JVal.obj (JObj.ofList [("y", JVal.arr JArr.nil)]))] := by decide

/-- `check_id_hash` (py2cwlwriter.py:217-221): prepend the reference
prefix `#` unless already present. -/
def check_id_hash (id : String) : String :=
  match id.toList with
  | c :: _ => if c = Char.ofNat 35 then id else "#" ++ id
  | [] => "#" ++ id

/-- The whitespace-split of Python `str.split()` with no arguments, on the
character list: skip whitespace runs, collect maximal non-whitespace
words.  `acc` holds the reversed current word. -/
def pyWordsAux : List Char → List Char → List (List Char)
  | [], acc => if acc.isEmpty then [] else [acc.reverse]
  | c :: rest, acc =>
    if c.isWhitespace then
      if acc.isEmpty then pyWordsAux rest []
      else acc.reverse :: pyWordsAux rest []
    else pyWordsAux rest (c :: acc)

/-- Python `str.split()` with no arguments: whitespace-run splitting with
no empty tokens. -/
def pySplit (s : String) : List String :=
  (pyWordsAux s.toList []).map String.mk

example : pySplit "python test.py" = ["python", "test.py"] := by decide

example : pySplit "" = [] := by decide

/-- The three scripting-marker characters of `expression_check`
(py2cwlwriter.py:94): apostrophe (39), dollar (36), period (46);
`"m in s"` for a one-character string is character membership. -/
def containsMarker (s : String) : Bool :=
  s.toList.any (fun c => c == Char.ofNat 39 || c == Char.ofNat 36 || c == Char.ofNat 46)

/-- The wrapped dynamic-expression record
`{"class": "Expression", "engine": "#cwl-js-engine", "script": value}`. -/
def expressionWrap (v : JVal) : JVal :=
  JVal.obj (JObj.ofList
    [("class", JVal.str "Expression"), ("engine", JVal.str "#cwl-js-engine"), ("script", v)])

/-- The pure marker classification shared by the three `expression_check`
methods (py2cwlwriter.py:89-97, 168-173, 191-196): wrap the value when its
`str()` text contains a marker character, else return it unchanged. -/
def exprClassify (v : JVal) : JVal :=
  if containsMarker (pyStr v) then expressionWrap v else v

/-- CWL Input Port object (`CwlInput`, py2cwlwriter.py:149-173).  Optional
attributes that the constructor may leave unset (`inputBinding`,
`valueFrom`) are `Option`-typed; `toDict` omits them, mirroring Python
attribute absence.  `pfx` stands for the source attribute `prefix`. -/
structure CwlInput where
  id : String
  type : List String
  required : Bool
  label : Option String
  description : Option String
  inputBinding : Option JObj
  valueFrom : Option JVal
  deriving Repr, DecidableEq

/-- `CwlInput.__init__` (py2cwlwriter.py:151-159) together with
`create_input_binding` (161-166): normalize the id, wrap the type by
requiredness, build the binding eagerly when a truthy prefix is given
(attribute order: prefix, separate, position, sbg_cmdInclude), classify a
truthy `valueFrom`. -/
def CwlInput.make (id ty : String) (required : Bool) (label description pfx : Option String)
    (separate : Bool) (position : Int) (valueFrom : Option JVal) : CwlInput :=
  { id := check_id_hash id
  , type := if required then [ty] else ["null", ty]
  , required := required
  , label := label
  , description := description
  , inputBinding :=
      match pfx with
      | some p =>
          if p.toList.isEmpty then none
          else some (JObj.ofList
            [("prefix", JVal.str p), ("separate", JVal.bool separate),
             ("position", JVal.int position), ("sbg_cmdInclude", JVal.bool true)])
      | none => none
  , valueFrom :=
      match valueFrom with
      | some v => if pyTruthy v then some (exprClassify v) else none
      | none => none }

/-- `CwlInput.__dict__`, in attribute-insertion order. -/
def CwlInput.toDict (o : CwlInput) : JObj :=
  JObj.ofList
    ([("id", JVal.str o.id),
      ("type", JVal.arr (JArr.ofList (o.type.map JVal.str))),
      ("required", JVal.bool o.required),
      ("label", optStr o.label),
      ("description", optStr o.description)]
     ++ (match o.inputBinding with
         | some b => [("inputBinding", JVal.obj b)]
         | none => [])
     ++ (match o.valueFrom with
         | some v => [("valueFrom", v)]
         | none => []))

/-- CWL Output Port object (`CwlOutput`, py2cwlwriter.py:175-199). -/
structure CwlOutput where
  id : String
  type : List String
  outputBinding : JObj
  required : Bool
  label : Option String
  description : Option String
  fileTypes : Option String
  deriving Repr, DecidableEq

/-- `CwlOutput.__init__` (py2cwlwriter.py:177-189) with
`create_output_binding`: normalize the id, wrap the type by requiredness,
always build the output binding with the glob passed through
`expression_check`. -/
def CwlOutput.make (id ty : String) (glob : JVal) (required : Bool)
    (label description fileTypes : Option String) : CwlOutput :=
  { id := check_id_hash id
  , type := if required then [ty] else ["null", ty]
  , outputBinding := JObj.ofList [("glob", exprClassify glob)]
  , required := required
  , label := label
  , description := description
  , fileTypes := fileTypes }

/-- `CwlOutput.__dict__`, in attribute-insertion order
(id, type, outputBinding, required, label, description, fileTypes). -/
def CwlOutput.toDict (o : CwlOutput) : JObj :=
  JObj.ofList
    [("id", JVal.str o.id),
     ("type", JVal.arr (JArr.ofList (o.type.map JVal.str))),
     ("outputBinding", JVal.obj o.outputBinding),
     ("required", JVal.bool o.required),
     ("label", optStr o.label),
     ("description", optStr o.description),
     ("fileTypes", optStr o.fileTypes)]

/-- CWL Argument object (`CwlArgument`, py2cwlwriter.py:201-207).  `pfx`
stands for the source attribute `prefix`. -/
structure CwlArgument where
  valueFrom : JVal
  pfx : Option String
  separate : Bool
  position : Int
  deriving Repr, DecidableEq

/-- `CwlArgument.__dict__`, in attribute-insertion order. -/
def CwlArgument.toDict (a : CwlArgument) : JObj :=
  JObj.ofList
    [("valueFrom", a.valueFrom),
     ("prefix", optStr a.pfx),
     ("separate", JVal.bool a.separate),
     ("position", JVal.int a.position)]

/-- The Tool Descriptor aggregate (`CwlTool.__init__` attributes,
py2cwlwriter.py:8-31), one Lean field per Python attribute in insertion
order.  `class_` is the internal storage name of the document class. -/
structure CwlTool where
  id : String
  author : Option String
  version : String
  description : Option String
  label : String
  class_ : String
  inputs : List JObj
  outputs : List JObj
  arguments : List JObj
  stdout : JVal
  stdin : JVal
  baseCommand : List String
  requirements : List JObj
  successCodes : List JVal
  temporaryFailCodes : List JVal
  hints : List JObj
  deriving Repr, DecidableEq

/-- `d["class"] == "ExpressionEngineRequirement"` for one requirement
entry (py2cwlwriter.py:107). -/
def isEERentry (d : JObj) : Bool :=
  match d.lookup "class" with
  | some (JVal.str s) => s == "ExpressionEngineRequirement"
  | _ => false

/-- The requirement entry appended by `requirements_check`
(py2cwlwriter.py:108-111). -/
def exprReqsEntry : JObj :=
  JObj.ofList
    [("class", JVal.str "ExpressionEngineRequirement"),
     ("id", JVal.str "#cwl-js-engine"),
     ("requirements", JVal.arr (JArr.ofList
        [JVal.obj (JObj.ofList
           [("class", JVal.str "DockerRequirement"),
            ("dockerPull", JVal.str "rabix/js-engine")])]))]

/-- `CwlTool.requirements_check` (py2cwlwriter.py:106-112): append the
expression-engine requirement entry unless one is already present. -/
def CwlTool.requirements_check (t : CwlTool) : CwlTool :=
  if t.requirements.any isEERentry then t
  else { t with requirements := t.requirements ++ [exprReqsEntry] }

/-- `CwlTool.expression_check` (py2cwlwriter.py:89-97): first ensure the
expression-engine requirement exists, then classify the value.  The state
change and the returned value are passed explicitly. -/
def CwlTool.expression_check (t : CwlTool) (v : JVal) : CwlTool × JVal :=
  let t2 := t.requirements_check
  (t2, exprClassify v)

/-- `CwlTool.add_input` (py2cwlwriter.py:33-43).  Dict key order: id,
label, description, type, inputBinding; the stored type is the branch the
source actually takes (`["null", str(type)]` when required,
`["null"]` when not). -/
def CwlTool.add_input (t : CwlTool) (id ty : String) (required : Bool)
    (label description pfx : Option String) (cmdInclude separate : Bool)
    (position : Option JVal) : CwlTool :=
  { t with inputs := t.inputs ++ [JObj.ofList
      [("id", JVal.str id),
       ("label", optStr label),
       ("description", optStr description),
       ("type", if required then JVal.arr (JArr.ofList [JVal.str "null", JVal.str ty])
                else JVal.arr (JArr.ofList [JVal.str "null"])),
       ("inputBinding", JVal.obj (JObj.ofList
          [("prefix", optStr pfx), ("sbg:cmdInclude", JVal.bool cmdInclude),
           ("separate", JVal.bool separate), ("position", optVal position)]))]] }

/-- `CwlTool.add_output` (py2cwlwriter.py:45-52).  The glob is stored raw;
the stored type is the branch the source actually takes. -/
def CwlTool.add_output (t : CwlTool) (id ty : String) (glob : JVal) (required : Bool)
    (label description : Option String) : CwlTool :=
  { t with outputs := t.outputs ++ [JObj.ofList
      [("id", JVal.str id),
       ("label", optStr label),
       ("description", optStr description),
       ("outputBinding", JVal.obj (JObj.ofList [("glob", glob)])),
       ("type", if required then JVal.arr (JArr.ofList [JVal.str "null", JVal.str ty])
                else JVal.arr (JArr.ofList [JVal.str "null"]))]] }

/-- `CwlTool.add_argument` (py2cwlwriter.py:54-56): the new dict is run
through `clean_null_values` before being appended. -/
def CwlTool.add_argument (t : CwlTool) (pfx order : Option JVal) (separate : Bool) : CwlTool :=
  { t with arguments := t.arguments ++ [cleanO (JObj.ofList
      [("prefix", optVal pfx), ("order", optVal order), ("separate", JVal.bool separate)])] }

/-- `CwlTool.add_base_command` (py2cwlwriter.py:58-59):
`self.baseCommand = base.split()`. -/
def CwlTool.add_base_command (t : CwlTool) (base : String) : CwlTool :=
  { t with baseCommand := pySplit base }

/-- `CwlTool.add_docker` (py2cwlwriter.py:62-64). -/
def CwlTool.add_docker (t : CwlTool) (dockerPull : String) (dockerImageID : Option String) :
    CwlTool :=
  { t with hints := t.hints ++ [JObj.ofList
      [("class", JVal.str "DockerRequirement"), ("dockerPull", JVal.str dockerPull),
       ("dockerImageID", optStr dockerImageID)]] }

/-- `CwlTool.add_cpu` (py2cwlwriter.py:66-68): the value passes through
`expression_check` (registering the expression engine), then the hint is
appended. -/
def CwlTool.add_cpu (t : CwlTool) (value : JVal) : CwlTool :=
  let p := t.expression_check value
  { p.1 with hints := p.1.hints ++ [JObj.ofList
      [("class", JVal.str "sbg:CPURequirement"), ("value", p.2)]] }

/-- `CwlTool.add_mem` (py2cwlwriter.py:70-72). -/
def CwlTool.add_mem (t : CwlTool) (value : JVal) : CwlTool :=
  let p := t.expression_check value
  { p.1 with hints := p.1.hints ++ [JObj.ofList
      [("class", JVal.str "sbg:MemRequirement"), ("value", p.2)]] }

/-- `CwlTool.add_aws_instance` (py2cwlwriter.py:74-76): no expression
check. -/
def CwlTool.add_aws_instance (t : CwlTool) (value : JVal) : CwlTool :=
  { t with hints := t.hints ++ [JObj.ofList
      [("class", JVal.str "sbg:AWSInstanceType"), ("value", value)]] }

/-- `CwlTool.add_computational_requirements` (py2cwlwriter.py:78-81):
`add_cpu`, `add_mem`, and `add_aws_instance` only for a truthy `aws`. -/
def CwlTool.add_computational_requirements (t : CwlTool) (cpu mem : JVal)
    (aws : Option JVal) : CwlTool :=
  let t2 := (t.add_cpu cpu).add_mem mem
  match aws with
  | some a => if pyTruthy a then t2.add_aws_instance a else t2
  | none => t2

/-- `CwlTool.add_stdin` (py2cwlwriter.py:83-84). -/
def CwlTool.add_stdin (t : CwlTool) (v : JVal) : CwlTool :=
  let p := t.expression_check v
  { p.1 with stdin := p.2 }

/-- `CwlTool.add_stdout` (py2cwlwriter.py:86-87). -/
def CwlTool.add_stdout (t : CwlTool) (v : JVal) : CwlTool :=
  let p := t.expression_check v
  { p.1 with stdout := p.2 }

/-- `CwlTool.object2input` (py2cwlwriter.py:127-133) for one port:
append `clean_null_values(inputObject.__dict__)`. -/
def CwlTool.object2input (t : CwlTool) (o : CwlInput) : CwlTool :=
  { t with inputs := t.inputs ++ [cleanO o.toDict] }

/-- `CwlTool.object2argument` (py2cwlwriter.py:135-140) for one argument. -/
def CwlTool.object2argument (t : CwlTool) (a : CwlArgument) : CwlTool :=
  { t with arguments := t.arguments ++ [cleanO a.toDict] }

/-- `CwlTool.object2output` (py2cwlwriter.py:142-147) for one port. -/
def CwlTool.object2output (t : CwlTool) (o : CwlOutput) : CwlTool :=
  { t with outputs := t.outputs ++ [cleanO o.toDict] }

/-- `CwlTool.__init__` (py2cwlwriter.py:8-31): set the descriptive fields
and empty collections, then call `add_computational_requirements()` with
its defaults (cpu=1, mem=1000, aws=None). -/
def CwlTool.make (id label : String) (author : Option String) (version : String)
    (description : Option String) : CwlTool :=
  CwlTool.add_computational_requirements
    { id := id, author := author, version := version, description := description,
      label := label, class_ := "CommandLineTool", inputs := [], outputs := [],
      arguments := [], stdout := JVal.str "", stdin := JVal.str "", baseCommand := [],
      requirements := [], successCodes := [], temporaryFailCodes := [], hints := [] }
    (JVal.int 1) (JVal.int 1000) none

/-- `CwlTool.__dict__`, in attribute-insertion order
(py2cwlwriter.py:8-30). -/
def CwlTool.toDict (t : CwlTool) : JObj :=
  JObj.ofList
    [("id", JVal.str t.id),
     ("author", optStr t.author),
     ("version", JVal.str t.version),
     ("description", optStr t.description),
     ("label", JVal.str t.label),
     ("class_", JVal.str t.class_),
     ("inputs", JVal.arr (JArr.ofList (t.inputs.map JVal.obj))),
     ("outputs", JVal.arr (JArr.ofList (t.outputs.map JVal.obj))),
     ("arguments", JVal.arr (JArr.ofList (t.arguments.map JVal.obj))),
     ("stdout", t.stdout),
     ("stdin", t.stdin),
     ("baseCommand", JVal.arr (JArr.ofList (t.baseCommand.map JVal.str))),
     ("requirements", JVal.arr (JArr.ofList (t.requirements.map JVal.obj))),
     ("successCodes", JVal.arr (JArr.ofList t.successCodes)),
     ("temporaryFailCodes", JVal.arr (JArr.ofList t.temporaryFailCodes)),
     ("hints", JVal.arr (JArr.ofList (t.hints.map JVal.obj)))]

/-- Number of requirement entries whose discriminator is
`"ExpressionEngineRequirement"`. -/
def countEER (reqs : List JObj) : Nat :=
  (reqs.filter isEERentry).length

/-- Double-quote character. -/
def qu : Char := Char.ofNat 34

/-- Comma character. -/
def cm : Char := Char.ofNat 44

/-- Colon character. -/
def cl : Char := Char.ofNat 58

/-- Left square bracket. -/
def lb : Char := Char.ofNat 91

/-- Right square bracket. -/
def rb : Char := Char.ofNat 93

/-- Left curly brace. -/
def lc : Char := Char.ofNat 123

/-- Right curly brace. -/
def rc : Char := Char.ofNat 125

mutual

/-- Compact JSON rendering of a value, modelling the external
`json.dumps` serializer adapter: keys and string values are quoted
verbatim (the modelled documents contain no characters that JSON has to
escape), numbers print in decimal, entries separate with commas.
Indentation, the space after separators and `sort_keys` reordering are
whitespace/ordering details of the adapter that no claim depends on and
are not modelled. -/
def renderV : JVal → List Char
  | JVal.null => "null".toList
  | JVal.str s => qu :: s.toList ++ [qu]
  | JVal.int n => intRender n
  | JVal.bool b => if b then "true".toList else "false".toList
  | JVal.arr xs => lb :: renderA xs ++ [rb]
  | JVal.obj kvs => lc :: renderO kvs ++ [rc]

/-- Render the comma-separated elements of a list. -/
def renderA : JArr → List Char
  | JArr.nil => []
  | JArr.cons v JArr.nil => renderV v
  | JArr.cons v rest => renderV v ++ cm :: renderA rest

/-- Render the comma-separated `"key":value` entries of a dict. -/
def renderO : JObj → List Char
  | JObj.nil => []
  | JObj.cons k v JObj.nil => qu :: k.toList ++ qu :: cl :: renderV v
  | JObj.cons k v rest =>
      (qu :: k.toList ++ qu :: cl :: renderV v) ++ cm :: renderO rest

end

/-- Python `str.replace(pat, rep)` on character lists for a non-empty
pattern `p :: ps`: scan left to right, replacing each (non-overlapping)
occurrence and never rescanning the replacement text.  The `fuel`
argument makes the recursion structural; it is always called with
`fuel = s.length`, an upper bound that every recursive call preserves, so
the `fuel = 0` fallback is never reached on a non-empty list. -/
def replFuel (p : Char) (ps rep : List Char) : Nat → List Char → List Char
  | _, [] => []
  | 0, s => s
  | Nat.succ fuel, a :: s =>
      if (p :: ps).isPrefixOf (a :: s) then
        rep ++ replFuel p ps rep fuel (s.drop ps.length)
      else a :: replFuel p ps rep fuel s

/-- Python `str.replace(pat, rep)` on character lists (the source never
replaces an empty pattern; that case returns the text unchanged here). -/
def pyReplaceL (pat rep s : List Char) : List Char :=
  match pat with
  | [] => s
  | p :: ps => replFuel p ps rep s.length s

/-- Python `str.replace(pat, rep)`. -/
def pyReplace (s pat rep : String) : String :=
  String.mk (pyReplaceL pat.toList rep.toList s.toList)

example : pyReplace "xclass_y class_" "class_" "class" = "xclassy class" := by decide

example : pyReplace "aaa" "aa" "b" = "ba" := by decide

/-- `CwlTool.object2json` (py2cwlwriter.py:114-122): serialize the
descriptor's attribute dict with `clean_null_values` applied through the
`default` hook, then post-process the TEXT with
`.replace("class_", "class")` and
`.replace("sbg_cmdInclude", "sbg:cmdInclude")`. -/
def CwlTool.object2json (t : CwlTool) : String :=
  pyReplace
    (pyReplace (String.mk (renderV (JVal.obj (cleanO t.toDict)))) "class_" "class")
    "sbg_cmdInclude" "sbg:cmdInclude"

/-- The descriptor's own attribute dict after `object2json` has run:
`json.dumps`'s `default` hook hands `clean_null_values` the live
`self.__dict__`, which it mutates in place. -/
def CwlTool.dictAfterObject2json (t : CwlTool) : JObj :=
  cleanO t.toDict

/-- One invocation of the Tool Descriptor construction API
(py2cwlwriter.py:33-147): everything a caller can do to a `CwlTool`
after `__init__`. -/
inductive BuilderOp where
  | opAddInput (id ty : String) (required : Bool) (label description pfx : Option String)
      (cmdInclude separate : Bool) (position : Option JVal) : BuilderOp
  | opAddOutput (id ty : String) (glob : JVal) (required : Bool)
      (label description : Option String) : BuilderOp
  | opAddArgument (pfx order : Option JVal) (separate : Bool) : BuilderOp
  | opAddBaseCommand (base : String) : BuilderOp
  | opAddDocker (dockerPull : String) (dockerImageID : Option String) : BuilderOp
  | opAddCpu (v : JVal) : BuilderOp
  | opAddMem (v : JVal) : BuilderOp
  | opAddAwsInstance (v : JVal) : BuilderOp
  | opAddComputationalRequirements (cpu mem : JVal) (aws : Option JVal) : BuilderOp
  | opAddStdin (v : JVal) : BuilderOp
  | opAddStdout (v : JVal) : BuilderOp
  | opRequirementsCheck : BuilderOp
  | opObject2input (o : CwlInput) : BuilderOp
  | opObject2output (o : CwlOutput) : BuilderOp
  | opObject2argument (a : CwlArgument) : BuilderOp

/-- Dispatch one API call on a descriptor. -/
def BuilderOp.apply (t : CwlTool) : BuilderOp → CwlTool
  | BuilderOp.opAddInput id ty required label description pfx cmdInclude separate position =>
      t.add_input id ty required label description pfx cmdInclude separate position
  | BuilderOp.opAddOutput id ty glob required label description =>
      t.add_output id ty glob required label description
  | BuilderOp.opAddArgument pfx order separate => t.add_argument pfx order separate
  | BuilderOp.opAddBaseCommand base => t.add_base_command base
  | BuilderOp.opAddDocker dockerPull dockerImageID => t.add_docker dockerPull dockerImageID
  | BuilderOp.opAddCpu v => t.add_cpu v
  | BuilderOp.opAddMem v => t.add_mem v
  | BuilderOp.opAddAwsInstance v => t.add_aws_instance v
  | BuilderOp.opAddComputationalRequirements cpu mem aws =>
      t.add_computational_requirements cpu mem aws
  | BuilderOp.opAddStdin v => t.add_stdin v
  | BuilderOp.opAddStdout v => t.add_stdout v
  | BuilderOp.opRequirementsCheck => t.requirements_check
  | BuilderOp.opObject2input o => t.object2input o
  | BuilderOp.opObject2output o => t.object2output o
  | BuilderOp.opObject2argument a => t.object2argument a

/-- Run a sequence of API calls. -/
def runOps (t : CwlTool) (ops : List BuilderOp) : CwlTool :=
  ops.foldl BuilderOp.apply t

example :
    (CwlTool.make "test_tool" "testing123" (some "gaurav") "cwl:draft-2" none).requirements
      = [exprReqsEntry] := by decide

example :
    (CwlTool.make "test_tool" "testing123" (some "gaurav") "cwl:draft-2" none).hints
      = [JObj.ofList [("class", JVal.str "sbg:CPURequirement"), ("value", JVal.int 1)],
         JObj.ofList [("class", JVal.str "sbg:MemRequirement"), ("value", JVal.int 1000)]] := by
  decide

example :
    exprClassify (JVal.str "$job.inputs.maybe.size")
      = expressionWrap (JVal.str "$job.inputs.maybe.size") := by decide

example : exprClassify (JVal.int 1) = JVal.int 1 := by decide

example : exprClassify (JVal.str "*.txt") = expressionWrap (JVal.str "*.txt") := by decide

example : check_id_hash "no" = "#no" := by decide

example : check_id_hash "#no" = "#no" := by decide

/-- After `clean_null_values`, no `None`-valued attribute remains at any
dict-nesting depth. -/
theorem noNullAttrs_cleanO : (o : JObj) → noNullAttrs (cleanO o) = true
  | JObj.nil => rfl
  | JObj.cons _ JVal.null rest => noNullAttrs_cleanO rest
  | JObj.cons k (JVal.obj o) rest => by
      simp [cleanO, noNullAttrs, noNullAttrs_cleanO o, noNullAttrs_cleanO rest]
  | JObj.cons k (JVal.str _) rest => by
      simp [cleanO, noNullAttrs, noNullAttrs_cleanO rest]
  | JObj.cons k (JVal.int _) rest => by
      simp [cleanO, noNullAttrs, noNullAttrs_cleanO rest]
  | JObj.cons k (JVal.bool _) rest => by
      simp [cleanO, noNullAttrs, noNullAttrs_cleanO rest]
  | JObj.cons k (JVal.arr _) rest => by
      simp [cleanO, noNullAttrs, noNullAttrs_cleanO rest]

/-- `clean_null_values` leaves a dict with no `None` attributes
unchanged. -/
theorem cleanO_of_noNullAttrs : (o : JObj) → noNullAttrs o = true → cleanO o = o
  | JObj.nil, _ => rfl
  | JObj.cons _ JVal.null _, h => by simp [noNullAttrs] at h
  | JObj.cons k (JVal.obj o) rest, h => by
      simp only [noNullAttrs, Bool.and_eq_true] at h
      simp [cleanO, cleanO_of_noNullAttrs o h.1, cleanO_of_noNullAttrs rest h.2]
  | JObj.cons k (JVal.str _) rest, h => by
      simp only [noNullAttrs] at h
      simp [cleanO, cleanO_of_noNullAttrs rest h]
  | JObj.cons k (JVal.int _) rest, h => by
      simp only [noNullAttrs] at h
      simp [cleanO, cleanO_of_noNullAttrs rest h]
  | JObj.cons k (JVal.bool _) rest, h => by
      simp only [noNullAttrs] at h
      simp [cleanO, cleanO_of_noNullAttrs rest h]
  | JObj.cons k (JVal.arr _) rest, h => by
      simp only [noNullAttrs] at h
      simp [cleanO, cleanO_of_noNullAttrs rest h]

/-- `clean_null_values` fixes a dict exactly when the dict has no
`None`-valued attribute (at any dict-nesting depth). -/
theorem cleanO_eq_self_iff (o : JObj) : cleanO o = o ↔ noNullAttrs o = true := by
  constructor
  · intro h
    have h2 := noNullAttrs_cleanO o
    rwa [h] at h2
  · exact cleanO_of_noNullAttrs o

/-- `clean_null_values` is idempotent. -/
theorem cleanO_idem (o : JObj) : cleanO (cleanO o) = cleanO o :=
  cleanO_of_noNullAttrs (cleanO o) (noNullAttrs_cleanO o)

/-- Every surviving attribute of a cleaned dict was present with a
non-`None` value, and keeps its (recursively cleaned) value: lookup of a
non-`None` binding is preserved by `clean_null_values`. -/
theorem lookup_cleanO : (o : JObj) → (k : String) → (v : JVal) →
    o.lookup k = some v → v ≠ JVal.null → (cleanO o).lookup k = some (cleanVal v)
  | JObj.nil, _, _, hl, _ => by simp [JObj.lookup] at hl
  | JObj.cons k2 v2 rest, k, v, hl, hv => by
      by_cases hk : k2 = k
      · subst hk
        simp [JObj.lookup] at hl
        subst hl
        cases v2 with
        | null => exact absurd rfl hv
        | str s => simp [cleanO, cleanVal, JObj.lookup]
        | int n => simp [cleanO, cleanVal, JObj.lookup]
        | bool b => simp [cleanO, cleanVal, JObj.lookup]
        | arr xs => simp [cleanO, cleanVal, JObj.lookup]
        | obj kvs => simp [cleanO, cleanVal, JObj.lookup]
      · have hl2 : rest.lookup k = some v := by
          simpa [JObj.lookup, hk] using hl
        have ih := lookup_cleanO rest k v hl2 hv
        cases v2 with
        | null => simpa [cleanO] using ih
        | str s => simpa [cleanO, JObj.lookup, hk] using ih
        | int n => simpa [cleanO, JObj.lookup, hk] using ih
        | bool b => simpa [cleanO, JObj.lookup, hk] using ih
        | arr xs => simpa [cleanO, JObj.lookup, hk] using ih
        | obj kvs => simpa [cleanO, JObj.lookup, hk] using ih

/-- A requirements list that already holds an expression-engine entry
makes the `any` guard of `requirements_check` fire. -/
theorem any_isEERentry_of_countEER_pos (l : List JObj) (h : 0 < countEER l) :
    l.any isEERentry = true := by
  by_contra hany
  have hall : ∀ d ∈ l, ¬ isEERentry d = true := by
    intro d hd hEER
    exact hany (List.any_eq_true.mpr ⟨d, hd, hEER⟩)
  have : l.filter isEERentry = [] := List.filter_eq_nil_iff.mpr hall
  simp [countEER, this] at h

/-- `requirements_check` is a no-op on a descriptor that already carries
exactly one expression-engine requirement entry. -/
theorem requirements_check_noop (t : CwlTool) (h : countEER t.requirements = 1) :
    t.requirements_check = t := by
  have : t.requirements.any isEERentry = true :=
    any_isEERentry_of_countEER_pos t.requirements (by omega)
  simp [CwlTool.requirements_check, this]

/-- Every single construction-API call preserves the invariant that the
requirements list holds exactly one expression-engine entry. -/
theorem countEER_apply (op : BuilderOp) (t : CwlTool) (h : countEER t.requirements = 1) :
    countEER (BuilderOp.apply t op).requirements = 1 := by
  have hrc := requirements_check_noop t h
  cases op with
  | opAddInput id ty required label description pfx cmdInclude separate position =>
      simpa [BuilderOp.apply, CwlTool.add_input] using h
  | opAddOutput id ty glob required label description =>
      simpa [BuilderOp.apply, CwlTool.add_output] using h
  | opAddArgument pfx order separate =>
      simpa [BuilderOp.apply, CwlTool.add_argument] using h
  | opAddBaseCommand base =>
      simpa [BuilderOp.apply, CwlTool.add_base_command] using h
  | opAddDocker dockerPull dockerImageID =>
      simpa [BuilderOp.apply, CwlTool.add_docker] using h
  | opAddCpu v =>
      simpa [BuilderOp.apply, CwlTool.add_cpu, CwlTool.expression_check, hrc] using h
  | opAddMem v =>
      simpa [BuilderOp.apply, CwlTool.add_mem, CwlTool.expression_check, hrc] using h
  | opAddAwsInstance v =>
      simpa [BuilderOp.apply, CwlTool.add_aws_instance] using h
  | opAddComputationalRequirements cpu mem aws =>
      have h1 : countEER (t.add_cpu cpu).requirements = 1 := by
        simpa [CwlTool.add_cpu, CwlTool.expression_check, hrc] using h
      have hrc1 := requirements_check_noop (t.add_cpu cpu) h1
      have h2 : countEER ((t.add_cpu cpu).add_mem mem).requirements = 1 := by
        simpa [CwlTool.add_mem, CwlTool.expression_check, hrc1] using h1
      cases aws with
      | none => simpa [BuilderOp.apply, CwlTool.add_computational_requirements] using h2
      | some a =>
          by_cases ha : pyTruthy a = true
          · simpa [BuilderOp.apply, CwlTool.add_computational_requirements, ha,
              CwlTool.add_aws_instance] using h2
          · simpa [BuilderOp.apply, CwlTool.add_computational_requirements, ha] using h2
  | opAddStdin v =>
      simpa [BuilderOp.apply, CwlTool.add_stdin, CwlTool.expression_check, hrc] using h
  | opAddStdout v =>
      simpa [BuilderOp.apply, CwlTool.add_stdout, CwlTool.expression_check, hrc] using h
  | opRequirementsCheck =>
      simpa [BuilderOp.apply, hrc] using h
  | opObject2input o =>
      simpa [BuilderOp.apply, CwlTool.object2input] using h
  | opObject2output o =>
      simpa [BuilderOp.apply, CwlTool.object2output] using h
  | opObject2argument a =>
      simpa [BuilderOp.apply, CwlTool.object2argument] using h

/-- The invariant is preserved by any sequence of construction-API
calls. -/
theorem countEER_runOps (ops : List BuilderOp) : ∀ t : CwlTool,
    countEER t.requirements = 1 → countEER (runOps t ops).requirements = 1 := by
  induction ops with
  | nil => intro t h; simpa [runOps] using h
  | cons op rest ih =>
      intro t h
      have h1 := countEER_apply op t h
      simpa [runOps] using ih (BuilderOp.apply t op) h1

/-- A freshly constructed descriptor already carries exactly one
expression-engine requirement entry (registered by the
`expression_check` run on the default CPU hint during `__init__`). -/
theorem countEER_make (id label : String) (author : Option String) (version : String)
    (description : Option String) :
    countEER (CwlTool.make id label author version description).requirements = 1 := rfl

/-- `(String.mk l).toList = l`. -/
theorem toList_mk (l : List Char) : (String.mk l).toList = l := rfl

/-- A non-empty reversed accumulator of non-whitespace characters is a
valid word. -/
theorem wordOk_reverse (acc : List Char) (hne : acc ≠ [])
    (hacc : ∀ c ∈ acc, c.isWhitespace = false) :
    (!acc.reverse.isEmpty && acc.reverse.all (fun c => !c.isWhitespace)) = true := by
  have h1 : acc.reverse ≠ [] := by simpa using hne
  have h2 : acc.reverse.all (fun c => !c.isWhitespace) = true := by
    rw [List.all_reverse]
    exact List.all_eq_true.mpr (fun c hc => by simp [hacc c hc])
  simp [List.isEmpty_eq_false.mpr h1, h2]

/-- Every word produced by the splitter is non-empty and free of
whitespace, provided the accumulated partial word already is. -/
theorem pyWordsAux_wordsOk : ∀ (l acc : List Char),
    (∀ c ∈ acc, c.isWhitespace = false) →
    ((pyWordsAux l acc).all
        (fun w => !w.isEmpty && w.all (fun c => !c.isWhitespace))) = true := by
  intro l
  induction l with
  | nil =>
      intro acc hacc
      cases acc with
      | nil => simp [pyWordsAux]
      | cons a as =>
          simp only [pyWordsAux, List.isEmpty_cons, Bool.false_eq_true, if_false,
            List.all_cons, List.all_nil, Bool.and_true]
          exact wordOk_reverse (a :: as) (by simp) hacc
  | cons c rest ih =>
      intro acc hacc
      by_cases hw : c.isWhitespace
      · cases acc with
        | nil => simpa [pyWordsAux, hw] using ih [] (by simp)
        | cons a as =>
            simp only [pyWordsAux, hw, if_true, List.isEmpty_cons, Bool.false_eq_true,
              if_false, List.all_cons]
            rw [wordOk_reverse (a :: as) (by simp) hacc]
            simpa using ih [] (by simp)
      · simp only [pyWordsAux, hw, if_false]
        refine ih (c :: acc) ?_
        intro a ha
        rcases List.mem_cons.mp ha with h | h
        · subst h; simpa using hw
        · exact hacc a h

/-- C1: the claim as stated — for every port added to a descriptor,
`required=false` gives stored type `["null", type]` and `required=true`
gives `[type]` — is what `CwlInput.__init__` and `CwlOutput.__init__`
implement, but `CwlTool.add_input`/`add_output` (py2cwlwriter.py:41-42,
50-51) store `["null", str(type)]` when `required=True` and a bare
`["null"]` (dropping the concrete type entirely) when `required=False`,
contradicting the rule implemented by the port classes of the same file.
This theorem evaluates both code paths at the failing inputs. -/
theorem c1_port_type_bug :
    ((CwlTool.make "t" "l" none "cwl:draft-2" none).add_input "yes" "boolean" false
        none none none true true none).inputs.map (fun d => d.lookup "type")
      = [some (JVal.arr (JArr.ofList [JVal.str "null"]))]
    ∧ ((CwlTool.make "t" "l" none "cwl:draft-2" none).add_input "yes" "boolean" true
        none none none true true none).inputs.map (fun d => d.lookup "type")
      = [some (JVal.arr (JArr.ofList [JVal.str "null", JVal.str "boolean"]))]
    ∧ (CwlInput.make "yes" "boolean" false none none none true 0 none).type
      = ["null", "boolean"]
    ∧ (CwlInput.make "yes" "boolean" true none none none true 0 none).type
      = ["boolean"] := by decide

/-- C2: for every scalar value put through `expression_check`, the result
is the wrapped record `{"class": "Expression", "engine": "#cwl-js-engine",
"script": value}` exactly when `str(value)` contains one of the marker
characters `'`, `$`, `.`; otherwise the value is returned unchanged. -/
theorem c2_expression_classifier (t : CwlTool) (v : JVal) (h : v.isScalar = true) :
    ((t.expression_check v).2 = expressionWrap v ↔ containsMarker (pyStr v) = true)
    ∧ (containsMarker (pyStr v) = false → (t.expression_check v).2 = v) := by
  have h2 : (t.expression_check v).2 = exprClassify v := rfl
  rw [h2]
  unfold exprClassify
  by_cases hm : containsMarker (pyStr v) = true
  · rw [if_pos hm]
    exact ⟨⟨fun _ => hm, fun _ => rfl⟩,
           fun hc => absurd hm (by simp [hc])⟩
  · rw [if_neg hm]
    have hm2 : containsMarker (pyStr v) = false := by simpa using hm
    refine ⟨⟨fun he => ?_, fun hc => absurd hc hm⟩, fun _ => rfl⟩
    exfalso
    cases v <;> simp [JVal.isScalar] at h <;> simp [expressionWrap] at he

/-- Witness for C2 at the dynamic value `"$x"` and a concrete
descriptor. -/
theorem c2_expression_classifier_witness :
    JVal.isScalar (JVal.str "$x") = true
    ∧ ((((CwlTool.make "t" "l" none "cwl:draft-2" none).expression_check
          (JVal.str "$x")).2 = expressionWrap (JVal.str "$x")
        ↔ containsMarker (pyStr (JVal.str "$x")) = true)
      ∧ (containsMarker (pyStr (JVal.str "$x")) = false →
          ((CwlTool.make "t" "l" none "cwl:draft-2" none).expression_check
            (JVal.str "$x")).2 = JVal.str "$x")) :=
  ⟨by decide,
   c2_expression_classifier (CwlTool.make "t" "l" none "cwl:draft-2" none)
     (JVal.str "$x") (by decide)⟩

/-- C3: any descriptor built by `__init__` followed by any sequence of
construction-API calls carries exactly one requirement entry whose
discriminator is `"ExpressionEngineRequirement"` — however many fields
were classified as dynamic expressions and however many times
registration ran.  (The entry is registered during `__init__` itself, so
the invariant holds from the start; `CwlOutput.expression_check` never
touches the registry.) -/
theorem c3_single_expression_engine_requirement (ops : List BuilderOp)
    (id label : String) (author : Option String) (version : String)
    (description : Option String) :
    countEER (runOps (CwlTool.make id label author version description) ops).requirements
      = 1 :=
  countEER_runOps ops _ (countEER_make id label author version description)

/-- C4: `clean_null_values` removes all `None`-valued attributes,
recursively through nested dict-valued sub-records, and only those:
every attribute bound to a non-`None` value — including falsy-but-present
values such as the empty list, `0` or `False` — survives with its
(recursively cleaned) value. -/
theorem c4_prune_removes_exactly_nulls (doc : JObj) :
    noNullAttrs (cleanO doc) = true
    ∧ ∀ (k : String) (v : JVal), doc.lookup k = some v → v ≠ JVal.null →
        (cleanO doc).lookup k = some (cleanVal v) :=
  ⟨noNullAttrs_cleanO doc, fun k v h1 h2 => lookup_cleanO doc k v h1 h2⟩

/-- Witness for C4 on a dict holding a `None`, an empty list, a zero, a
`False` and a nested dict: the falsy-but-present binding for `"b"` is
retained. -/
theorem c4_prune_removes_exactly_nulls_witness :
    noNullAttrs (cleanO (JObj.ofList
        [("a", JVal.null), ("b", JVal.arr JArr.nil), ("c", JVal.int 0),
         ("d", JVal.bool false),
         ("e", JVal.obj (JObj.ofList [("x", JVal.null), ("y", JVal.str "")]))])) = true
    ∧ (cleanO (JObj.ofList
        [("a", JVal.null), ("b", JVal.arr JArr.nil), ("c", JVal.int 0),
         ("d", JVal.bool false),
         ("e", JVal.obj (JObj.ofList [("x", JVal.null), ("y", JVal.str "")]))])).lookup "b"
      = some (cleanVal (JVal.arr JArr.nil)) :=
  ⟨(c4_prune_removes_exactly_nulls _).1,
   (c4_prune_removes_exactly_nulls _).2 "b" (JVal.arr JArr.nil) (by decide) (by decide)⟩

/-- C6 counterexample: the claim says the glob `"*.txt"` is stored
unchanged as a literal, but `"*.txt"` contains the marker character `.`,
so `CwlOutput.create_output_binding` wraps it as a dynamic-expression
record. -/
theorem c6_glob_counterexample :
    (CwlOutput.make "no" "File" (JVal.str "*.txt") true none none none).outputBinding
      = JObj.ofList [("glob", expressionWrap (JVal.str "*.txt"))]
    ∧ expressionWrap (JVal.str "*.txt") ≠ JVal.str "*.txt" := by decide

/-- C6 as amended: `CwlOutput(id="no", type="File", glob="*.txt",
required=True)` yields id `"#no"` and type `["File"]` as claimed, but the
output binding stores the expression-wrapped record for `"*.txt"` (the
period is a marker character), not the bare literal. -/
theorem c6_output_scenario_amended :
    (CwlOutput.make "no" "File" (JVal.str "*.txt") true none none none).id = "#no"
    ∧ (CwlOutput.make "no" "File" (JVal.str "*.txt") true none none none).type = ["File"]
    ∧ (CwlOutput.make "no" "File" (JVal.str "*.txt") true none none none).outputBinding
      = JObj.ofList [("glob", JVal.obj (JObj.ofList
          [("class", JVal.str "Expression"), ("engine", JVal.str "#cwl-js-engine"),
           ("script", JVal.str "*.txt")]))] := by decide

/-- C7 counterexample: the claim says `set_base_command("")` fails with a
caller error, but Python `"".split()` returns `[]` without raising:
the call succeeds and stores the empty token sequence. -/
theorem c7_empty_base_command_counterexample :
    (CwlTool.make "t" "l" none "cwl:draft-2" none).add_base_command ""
      = { CwlTool.make "t" "l" none "cwl:draft-2" none with baseCommand := [] } := by
  decide

/-- C7 as amended: `add_base_command` replaces any previously stored base
command with the whitespace-split tokens of the text (every token
non-empty and whitespace-free, `"python test.py"` giving
`["python", "test.py"]`); the empty string yields the empty token
sequence instead of an error. -/
theorem c7_base_command_amended (t t2 : CwlTool) (base : String) :
    (t.add_base_command base).baseCommand = (t2.add_base_command base).baseCommand
    ∧ (t.add_base_command "python test.py").baseCommand = ["python", "test.py"]
    ∧ (t.add_base_command "").baseCommand = []
    ∧ ((t.add_base_command base).baseCommand.all
        (fun w => !w.toList.isEmpty && w.toList.all (fun c => !c.isWhitespace))) = true := by
  refine ⟨rfl, rfl, rfl, ?_⟩
  show ((pySplit base).all _) = true
  unfold pySplit
  rw [List.all_eq_true]
  intro w hw
  rw [List.mem_map] at hw
  obtain ⟨cs, hcs, rfl⟩ := hw
  have hall := pyWordsAux_wordsOk base.toList [] (by simp)
  rw [List.all_eq_true] at hall
  simpa [toList_mk] using hall cs hcs

/-- C8 counterexample: pruning is claimed never to mutate the descriptor,
but `object2json` hands the live `self.__dict__` to `clean_null_values`,
which deletes the `None`-valued attributes in place: for a freshly made
descriptor with no author and no description, the attribute dict after
the call differs from the one before. -/
theorem c8_pruning_mutates_counterexample :
    (CwlTool.make "test_tool" "testing123" none "cwl:draft-2" none).dictAfterObject2json
      ≠ (CwlTool.make "test_tool" "testing123" none "cwl:draft-2" none).toDict := by decide

/-- C8 as amended: `object2json` prunes the descriptor's own attribute
dict in place, so the descriptor is left unchanged exactly when its
attribute dict has no `None`-valued attribute (recursively through
dict-valued attributes); otherwise the `None` attributes are deleted from
the descriptor itself. -/
theorem c8_pruning_mutation_amended (t : CwlTool) :
    t.dictAfterObject2json = t.toDict ↔ noNullAttrs t.toDict = true :=
  cleanO_eq_self_iff t.toDict

/-- C9: pruning is idempotent — `clean_null_values` applied to an
already-pruned document tree returns it unchanged. -/
theorem c9_prune_idempotent (doc : JObj) : cleanO (cleanO doc) = cleanO doc :=
  cleanO_idem doc

/-- C10: a freshly constructed descriptor, before any explicit builder
call, already holds exactly the two default hints (CPU 1, memory 1000)
and exactly one `"ExpressionEngineRequirement"` entry, registered by the
`expression_check` run during `__init__` even though no field was ever
classified as a dynamic expression. -/
theorem c10_fresh_descriptor_defaults (id label : String) (author : Option String)
    (version : String) (description : Option String) :
    (CwlTool.make id label author version description).hints
      = [JObj.ofList [("class", JVal.str "sbg:CPURequirement"), ("value", JVal.int 1)],
         JObj.ofList [("class", JVal.str "sbg:MemRequirement"), ("value", JVal.int 1000)]]
    ∧ (CwlTool.make id label author version description).requirements = [exprReqsEntry]
    ∧ countEER (CwlTool.make id label author version description).requirements = 1 :=
  ⟨rfl, rfl, rfl⟩

/-- `pat` occurs (as a contiguous run) somewhere in `s`. -/
def hasOccurrence (pat : List Char) : List Char → Bool
  | [] => pat.isPrefixOf []
  | a :: s => pat.isPrefixOf (a :: s) || hasOccurrence pat s

/-- A prefix of `x` is also a prefix of `x ++ y`. -/
theorem ipo_append_left : (pat x y : List Char) →
    pat.isPrefixOf x = true → pat.isPrefixOf (x ++ y) = true
  | [], _, _, _ => by simp
  | p :: ps, a :: x2, y, hp => by
      simp only [List.isPrefixOf_cons₂, Bool.and_eq_true, List.cons_append] at hp ⊢
      exact ⟨hp.1, ipo_append_left ps x2 y hp.2⟩
  | p :: ps, [], y, hp => by simp at hp

/-- A prefix of `x ++ y` that fits inside `x` is a prefix of `x`. -/
theorem ipo_of_append : (pat x y : List Char) →
    pat.isPrefixOf (x ++ y) = true → pat.length ≤ x.length → pat.isPrefixOf x = true
  | [], _, _, _, _ => by simp
  | p :: ps, a :: x2, y, hp, hle => by
      simp only [List.cons_append, List.isPrefixOf_cons₂, Bool.and_eq_true] at hp ⊢
      exact ⟨hp.1, ipo_of_append ps x2 y hp.2 (by simpa using hle)⟩
  | p :: ps, [], y, hp, hle => by simp at hle

/-- A prefix of `x ++ c :: y` that does not fit inside `x` covers `c`. -/
theorem ipo_boundary_mem : (pat x : List Char) → (c : Char) → (y : List Char) →
    pat.isPrefixOf (x ++ c :: y) = true → x.length < pat.length → c ∈ pat
  | [], x, c, y, hp, hlt => by simp at hlt
  | p :: ps, [], c, y, hp, _ => by
      simp only [List.nil_append, List.isPrefixOf_cons₂, Bool.and_eq_true, beq_iff_eq] at hp
      simp [hp.1]
  | p :: ps, a :: x2, c, y, hp, hlt => by
      simp only [List.cons_append, List.isPrefixOf_cons₂, Bool.and_eq_true] at hp
      exact List.mem_cons_of_mem p (ipo_boundary_mem ps x2 c y hp.2 (by simpa using hlt))

/-- An occurrence of a non-empty pattern puts its first character in the
text. -/
theorem hasOccurrence_head_mem (p : Char) (ps : List Char) : (s : List Char) →
    hasOccurrence (p :: ps) s = true → p ∈ s
  | [], h => by simp [hasOccurrence] at h
  | a :: s, h => by
      simp only [hasOccurrence, Bool.or_eq_true] at h
      rcases h with h | h
      · simp only [List.isPrefixOf_cons₂, Bool.and_eq_true, beq_iff_eq] at h
        simp [h.1]
      · exact List.mem_cons_of_mem a (hasOccurrence_head_mem p ps s h)

/-- No occurrence when the pattern head never appears in the text. -/
theorem hasOccurrence_false_of_head_not_mem (p : Char) (ps s : List Char) (hp : ¬ p ∈ s) :
    hasOccurrence (p :: ps) s = false := by
  by_contra h
  exact hp (hasOccurrence_head_mem p ps s (by simpa using h))

/-- The replacement loop gives the same answer for any two sufficient
fuels. -/
theorem replFuel_fuel (p : Char) (ps rep : List Char) : ∀ (f1 : Nat) (s : List Char)
    (f2 : Nat), s.length ≤ f1 → s.length ≤ f2 →
    replFuel p ps rep f1 s = replFuel p ps rep f2 s := by
  intro f1
  induction f1 with
  | zero =>
      intro s f2 h1 _
      have : s = [] := List.length_eq_zero.mp (by omega)
      subst this
      cases f2 <;> rfl
  | succ g1 ih =>
      intro s f2 h1 h2
      cases s with
      | nil => cases f2 <;> rfl
      | cons a s2 =>
          cases f2 with
          | zero => simp at h2
          | succ g2 =>
              simp only [replFuel]
              by_cases hp : (p :: ps).isPrefixOf (a :: s2) = true
              · rw [if_pos hp, if_pos hp]
                have hd : (s2.drop ps.length).length ≤ g1 := by
                  simp only [List.length_drop]
                  simp only [List.length_cons] at h1
                  omega
                have hd2 : (s2.drop ps.length).length ≤ g2 := by
                  simp only [List.length_drop]
                  simp only [List.length_cons] at h2
                  omega
                rw [ih (s2.drop ps.length) g2 hd hd2]
              · rw [if_neg hp, if_neg hp]
                have hs : s2.length ≤ g1 := by simp only [List.length_cons] at h1; omega
                have hs2 : s2.length ≤ g2 := by simp only [List.length_cons] at h2; omega
                rw [ih s2 g2 hs hs2]

/-- Unfolding equation of the replacement on a non-empty text. -/
theorem pyReplaceL_cons (p : Char) (ps rep : List Char) (a : Char) (s : List Char) :
    pyReplaceL (p :: ps) rep (a :: s)
      = if (p :: ps).isPrefixOf (a :: s) then
          rep ++ pyReplaceL (p :: ps) rep (s.drop ps.length)
        else a :: pyReplaceL (p :: ps) rep s := by
  show replFuel p ps rep (a :: s).length (a :: s) = _
  simp only [List.length_cons, replFuel]
  by_cases hp : (p :: ps).isPrefixOf (a :: s) = true
  · rw [if_pos hp, if_pos hp]
    congr 1
    exact replFuel_fuel p ps rep s.length (s.drop ps.length) (s.drop ps.length).length
      (by simp [List.length_drop]) (le_refl _)
  · rw [if_neg hp, if_neg hp]
    rfl

/-- The replacement leaves a text with no occurrence unchanged. -/
theorem pyReplaceL_no_occ (p : Char) (ps rep : List Char) : (s : List Char) →
    hasOccurrence (p :: ps) s = false → pyReplaceL (p :: ps) rep s = s
  | [], _ => rfl
  | a :: s, h => by
      simp only [hasOccurrence, Bool.or_eq_false_iff] at h
      rw [pyReplaceL_cons, if_neg (by simp [h.1]), pyReplaceL_no_occ p ps rep s h.2]

/-- The replacement leaves a text unchanged when the pattern head never
appears in it. -/
theorem pyReplaceL_fixed (p : Char) (ps rep s : List Char) (hp : ¬ p ∈ s) :
    pyReplaceL (p :: ps) rep s = s :=
  pyReplaceL_no_occ p ps rep s (hasOccurrence_false_of_head_not_mem p ps s hp)

/-- The replacement distributes over an append whose left part contains
no pattern character at all. -/
theorem pyReplaceL_append_clean (p : Char) (ps rep : List Char) : (x y : List Char) →
    (∀ c ∈ x, ¬ c ∈ (p :: ps)) →
    pyReplaceL (p :: ps) rep (x ++ y) = x ++ pyReplaceL (p :: ps) rep y
  | [], y, _ => by simp
  | a :: x2, y, hx => by
      have hpa : ¬ (p :: ps).isPrefixOf (a :: (x2 ++ y)) = true := by
        intro hp
        simp only [List.isPrefixOf_cons₂, Bool.and_eq_true, beq_iff_eq] at hp
        exact hx a (by simp) (by simp [hp.1])
      rw [List.cons_append, pyReplaceL_cons, if_neg hpa, List.cons_append]
      rw [pyReplaceL_append_clean p ps rep x2 y (fun c hc => hx c (List.mem_cons_of_mem a hc))]

/-- The replacement distributes over an append split at a character that
is not in the pattern: no occurrence can straddle the boundary. -/
theorem pyReplaceL_append_sep (p : Char) (ps rep : List Char) (c : Char)
    (hc : ¬ c ∈ (p :: ps)) : (x y : List Char) →
    pyReplaceL (p :: ps) rep (x ++ c :: y)
      = pyReplaceL (p :: ps) rep x ++ pyReplaceL (p :: ps) rep (c :: y)
  | [], y => by
      show pyReplaceL (p :: ps) rep (c :: y) = pyReplaceL (p :: ps) rep [] ++ _
      rfl
  | a :: x2, y => by
      rw [List.cons_append, pyReplaceL_cons]
      by_cases hp : (p :: ps).isPrefixOf (a :: (x2 ++ c :: y)) = true
      · have hp2 : (p :: ps).isPrefixOf ((a :: x2) ++ c :: y) = true := by
          simpa [List.cons_append] using hp
        have hfit : (p :: ps).length ≤ (a :: x2).length := by
          by_contra hlt
          push_neg at hlt
          exact hc (ipo_boundary_mem (p :: ps) (a :: x2) c y hp2 hlt)
        have hpx : (p :: ps).isPrefixOf (a :: x2) = true :=
          ipo_of_append (p :: ps) (a :: x2) (c :: y) hp2 hfit
        have hlen : ps.length ≤ x2.length := by
          simp only [List.length_cons] at hfit
          omega
        rw [if_pos hp, pyReplaceL_cons, if_pos hpx, List.append_assoc]
        congr 1
        rw [List.drop_append_of_le_length hlen]
        exact pyReplaceL_append_sep p ps rep c hc (x2.drop ps.length) y
      · have hpx : ¬ (p :: ps).isPrefixOf (a :: x2) = true := by
          intro hx
          exact hp (by simpa [List.cons_append] using
            ipo_append_left (p :: ps) (a :: x2) (c :: y) hx)
        rw [if_neg hp, pyReplaceL_cons, if_neg hpx, List.cons_append]
        congr 1
        exact pyReplaceL_append_sep p ps rep c hc x2 y
  termination_by x _ => x.length
  decreasing_by
  · simp only [List.length_drop, List.length_cons]
    omega
  · simp only [List.length_cons]
    omega

/-- Decimal digit characters are neither letters nor underscore. -/
theorem digChar_not_alpha (d : Nat) (hd : d < 10) :
    (digChar d).isAlpha = false ∧ digChar d ≠ Char.ofNat 95 := by
  interval_cases d <;> exact ⟨by decide, by decide⟩

/-- Every character of the decimal rendering is a digit character. -/
theorem natDigitsF_mem : (f n : Nat) → ∀ c ∈ natDigitsF f n, ∃ d, d < 10 ∧ c = digChar d
  | 0, n => by simp [natDigitsF]
  | Nat.succ f, n => by
      intro c hc
      by_cases h : n < 10
      · simp only [natDigitsF, if_pos h, List.mem_singleton] at hc
        exact ⟨n, h, hc⟩
      · simp only [natDigitsF, if_neg h, List.mem_append, List.mem_singleton] at hc
        rcases hc with hc | hc
        · exact natDigitsF_mem f (n / 10) c hc
        · exact ⟨n % 10, Nat.mod_lt n (by omega), hc⟩

/-- No character of an integer's decimal text is a letter or the
underscore. -/
theorem intRender_chars (n : Int) :
    ∀ c ∈ intRender n, c.isAlpha = false ∧ c ≠ Char.ofNat 95 := by
  intro c hc
  unfold intRender at hc
  by_cases h : n < 0
  · rw [if_pos h] at hc
    rcases List.mem_cons.mp hc with h2 | h2
    · subst h2; exact ⟨by decide, by decide⟩
    · obtain ⟨d, hd, rfl⟩ := natDigitsF_mem _ _ c h2
      exact digChar_not_alpha d hd
  · rw [if_neg h] at hc
    obtain ⟨d, hd, rfl⟩ := natDigitsF_mem _ _ c hc
    exact digChar_not_alpha d hd

/-- A non-letter non-underscore character is not in a letters/underscore
pattern. -/
theorem not_mem_pat (p : Char) (ps : List Char)
    (hA : ∀ c ∈ p :: ps, c.isAlpha = true ∨ c = Char.ofNat 95)
    (c : Char) (h1 : c.isAlpha = false) (h2 : c ≠ Char.ofNat 95) : ¬ c ∈ (p :: ps) := by
  intro hm
  rcases hA c hm with h | h
  · rw [h] at h1; cases h1
  · exact h2 h

/-- A letters/underscore pattern never occurs in an integer's decimal
text. -/
theorem hasOccurrence_intRender (p : Char) (ps : List Char)
    (hA : ∀ c ∈ p :: ps, c.isAlpha = true ∨ c = Char.ofNat 95) (n : Int) :
    hasOccurrence (p :: ps) (intRender n) = false := by
  apply hasOccurrence_false_of_head_not_mem
  intro hp
  have h2 := intRender_chars n p hp
  rcases hA p (by simp) with h | h
  · rw [h] at h2; rcases h2 with ⟨h3, _⟩; cases h3
  · exact h2.2 h

/-- The textual key replacement applied at the tree level. -/
def keyReplace (pat rep : List Char) : String → String :=
  fun k => String.mk (pyReplaceL pat rep k.toList)

mutual

/-- Apply a key-renaming function to every dict key of a value, leaving
every non-dict-key part untouched. -/
def renameKeysV (f : String → String) : JVal → JVal
  | JVal.arr xs => JVal.arr (renameKeysA f xs)
  | JVal.obj kvs => JVal.obj (renameKeysO f kvs)
  | v => v

/-- Key renaming inside a list. -/
def renameKeysA (f : String → String) : JArr → JArr
  | JArr.nil => JArr.nil
  | JArr.cons v rest => JArr.cons (renameKeysV f v) (renameKeysA f rest)

/-- Key renaming inside a dict. -/
def renameKeysO (f : String → String) : JObj → JObj
  | JObj.nil => JObj.nil
  | JObj.cons k v rest => JObj.cons (f k) (renameKeysV f v) (renameKeysO f rest)

end

mutual

/-- No string value anywhere in the tree contains the pattern (keys are
unrestricted). -/
def noPatInValuesV (pat : List Char) : JVal → Bool
  | JVal.str s => !(hasOccurrence pat s.toList)
  | JVal.arr xs => noPatInValuesA pat xs
  | JVal.obj kvs => noPatInValuesO pat kvs
  | _ => true

/-- Value check inside a list. -/
def noPatInValuesA (pat : List Char) : JArr → Bool
  | JArr.nil => true
  | JArr.cons v rest => noPatInValuesV pat v && noPatInValuesA pat rest

/-- Value check inside a dict. -/
def noPatInValuesO (pat : List Char) : JObj → Bool
  | JObj.nil => true
  | JObj.cons _ v rest => noPatInValuesV pat v && noPatInValuesO pat rest

end

mutual

/-- Renaming keys does not change any string value. -/
theorem noPat_renameV (pat : List Char) (f : String → String) : (v : JVal) →
    noPatInValuesV pat (renameKeysV f v) = noPatInValuesV pat v
  | JVal.null => rfl
  | JVal.str _ => rfl
  | JVal.int _ => rfl
  | JVal.bool _ => rfl
  | JVal.arr xs => by
      simp only [renameKeysV, noPatInValuesV]
      exact noPat_renameA pat f xs
  | JVal.obj kvs => by
      simp only [renameKeysV, noPatInValuesV]
      exact noPat_renameO pat f kvs

/-- Renaming keys does not change any string value (lists). -/
theorem noPat_renameA (pat : List Char) (f : String → String) : (xs : JArr) →
    noPatInValuesA pat (renameKeysA f xs) = noPatInValuesA pat xs
  | JArr.nil => rfl
  | JArr.cons v rest => by
      simp only [renameKeysA, noPatInValuesA]
      rw [noPat_renameV pat f v, noPat_renameA pat f rest]

/-- Renaming keys does not change any string value (dicts). -/
theorem noPat_renameO (pat : List Char) (f : String → String) : (kvs : JObj) →
    noPatInValuesO pat (renameKeysO f kvs) = noPatInValuesO pat kvs
  | JObj.nil => rfl
  | JObj.cons k v rest => by
      simp only [renameKeysO, noPatInValuesO]
      rw [noPat_renameV pat f v, noPat_renameO pat f rest]

end

/-- The pattern head does not start a one-character text made of a
non-pattern character. -/
theorem head_not_mem_singleton (p : Char) (ps : List Char) (c : Char)
    (hc : ¬ c ∈ (p :: ps)) : ¬ p ∈ [c] := by
  intro hp
  simp only [List.mem_singleton] at hp
  exact hc (by simp [← hp])

/-- Replacing inside a one-character text made of a non-pattern character
changes nothing. -/
theorem pyReplaceL_singleton (p : Char) (ps rep : List Char) (c : Char)
    (hc : ¬ c ∈ (p :: ps)) : pyReplaceL (p :: ps) rep [c] = [c] :=
  pyReplaceL_fixed p ps rep [c] (head_not_mem_singleton p ps c hc)

/-- Replacement distributes over a separator character that is not in the
pattern. -/
theorem replace_sep (p : Char) (ps rep : List Char) (c : Char) (hc : ¬ c ∈ (p :: ps))
    (x y x2 y2 : List Char) (h1 : pyReplaceL (p :: ps) rep x = x2)
    (h2 : pyReplaceL (p :: ps) rep y = y2) :
    pyReplaceL (p :: ps) rep (x ++ c :: y) = x2 ++ c :: y2 := by
  rw [pyReplaceL_append_sep p ps rep c hc x y, h1]
  congr 1
  show pyReplaceL (p :: ps) rep ([c] ++ y) = c :: y2
  rw [pyReplaceL_append_clean p ps rep [c] y
    (by intro a ha; simp only [List.mem_singleton] at ha; rw [ha]; exact hc), h2]
  rfl

/-- Replacement passes through surrounding bracket characters that are
not in the pattern. -/
theorem replace_bracketed (p : Char) (ps rep : List Char) (o c : Char)
    (ho : ¬ o ∈ (p :: ps)) (hc : ¬ c ∈ (p :: ps)) (inner inner2 : List Char)
    (hIH : pyReplaceL (p :: ps) rep inner = inner2) :
    pyReplaceL (p :: ps) rep (o :: inner ++ [c]) = o :: inner2 ++ [c] := by
  show pyReplaceL (p :: ps) rep ([o] ++ (inner ++ c :: [])) = _
  rw [pyReplaceL_append_clean p ps rep [o] (inner ++ c :: [])
    (by intro a ha; simp only [List.mem_singleton] at ha; rw [ha]; exact ho)]
  rw [replace_sep p ps rep c hc inner [] inner2 [] hIH rfl]
  rfl

/-- Replacement turns a rendered `"key":value` entry into the entry with
the textual replacement applied to the key (the quote and colon cannot
take part in an occurrence of a quote-free pattern). -/
theorem replace_entry (p : Char) (ps rep : List Char)
    (hqu : ¬ qu ∈ (p :: ps)) (hcl : ¬ cl ∈ (p :: ps)) (k : String) (rv rv2 : List Char)
    (hIH : pyReplaceL (p :: ps) rep rv = rv2) :
    pyReplaceL (p :: ps) rep (qu :: k.toList ++ qu :: cl :: rv)
      = qu :: pyReplaceL (p :: ps) rep k.toList ++ qu :: cl :: rv2 := by
  show pyReplaceL (p :: ps) rep ([qu] ++ (k.toList ++ qu :: (cl :: rv))) = _
  rw [pyReplaceL_append_clean p ps rep [qu] (k.toList ++ qu :: (cl :: rv))
    (by intro a ha; simp only [List.mem_singleton] at ha; rw [ha]; exact hqu)]
  rw [pyReplaceL_append_sep p ps rep qu hqu k.toList (cl :: rv)]
  have h3 : pyReplaceL (p :: ps) rep (qu :: cl :: rv) = qu :: cl :: rv2 := by
    show pyReplaceL (p :: ps) rep ([qu, cl] ++ rv) = _
    rw [pyReplaceL_append_clean p ps rep [qu, cl] rv
      (by
        intro a ha
        rcases List.mem_cons.mp ha with h | h
        · rw [h]; exact hqu
        · simp only [List.mem_singleton] at h; rw [h]; exact hcl), hIH]
    rfl
  rw [h3]
  rfl

mutual

/-- Replacing a letters/underscore pattern in the rendered text of a
value whose string values are occurrence-free renames dict keys (through
the textual replacement) and changes nothing else. -/
theorem replace_renderV (p : Char) (ps rep : List Char)
    (hA : ∀ c ∈ p :: ps, c.isAlpha = true ∨ c = Char.ofNat 95)
    (hN : hasOccurrence (p :: ps) "null".toList = false)
    (hT : hasOccurrence (p :: ps) "true".toList = false)
    (hF : hasOccurrence (p :: ps) "false".toList = false) :
    (v : JVal) → noPatInValuesV (p :: ps) v = true →
    pyReplaceL (p :: ps) rep (renderV v)
      = renderV (renameKeysV (keyReplace (p :: ps) rep) v)
  | JVal.null, _ => by
      simp only [renderV, renameKeysV]
      exact pyReplaceL_no_occ p ps rep _ hN
  | JVal.str s, hv => by
      simp only [noPatInValuesV, Bool.not_eq_eq_eq_not, Bool.not_true] at hv
      simp only [renderV, renameKeysV]
      have hqu : ¬ qu ∈ (p :: ps) := not_mem_pat p ps hA qu (by decide) (by decide)
      show pyReplaceL (p :: ps) rep ([qu] ++ (s.toList ++ qu :: [])) = _
      rw [pyReplaceL_append_clean p ps rep [qu] (s.toList ++ qu :: [])
        (by intro a ha; simp only [List.mem_singleton] at ha; rw [ha]; exact hqu)]
      rw [replace_sep p ps rep qu hqu s.toList [] s.toList []
        (pyReplaceL_no_occ p ps rep s.toList hv) rfl]
      rfl
  | JVal.int n, _ => by
      simp only [renderV, renameKeysV]
      exact pyReplaceL_no_occ p ps rep _ (hasOccurrence_intRender p ps hA n)
  | JVal.bool b, _ => by
      cases b
      · simp only [renderV, renameKeysV]
        exact pyReplaceL_no_occ p ps rep _ hF
      · simp only [renderV, renameKeysV]
        exact pyReplaceL_no_occ p ps rep _ hT
  | JVal.arr xs, hv => by
      simp only [noPatInValuesV] at hv
      simp only [renderV, renameKeysV]
      exact replace_bracketed p ps rep lb rb
        (not_mem_pat p ps hA lb (by decide) (by decide))
        (not_mem_pat p ps hA rb (by decide) (by decide))
        (renderA xs) _ (replace_renderA p ps rep hA hN hT hF xs hv)
  | JVal.obj kvs, hv => by
      simp only [noPatInValuesV] at hv
      simp only [renderV, renameKeysV]
      exact replace_bracketed p ps rep lc rc
        (not_mem_pat p ps hA lc (by decide) (by decide))
        (not_mem_pat p ps hA rc (by decide) (by decide))
        (renderO kvs) _ (replace_renderO p ps rep hA hN hT hF kvs hv)

/-- List version of `replace_renderV`. -/
theorem replace_renderA (p : Char) (ps rep : List Char)
    (hA : ∀ c ∈ p :: ps, c.isAlpha = true ∨ c = Char.ofNat 95)
    (hN : hasOccurrence (p :: ps) "null".toList = false)
    (hT : hasOccurrence (p :: ps) "true".toList = false)
    (hF : hasOccurrence (p :: ps) "false".toList = false) :
    (xs : JArr) → noPatInValuesA (p :: ps) xs = true →
    pyReplaceL (p :: ps) rep (renderA xs)
      = renderA (renameKeysA (keyReplace (p :: ps) rep) xs)
  | JArr.nil, _ => rfl
  | JArr.cons v JArr.nil, hv => by
      simp only [noPatInValuesA, Bool.and_eq_true] at hv
      simp only [renderA, renameKeysA]
      exact replace_renderV p ps rep hA hN hT hF v hv.1
  | JArr.cons v (JArr.cons v2 rest), hv => by
      simp only [noPatInValuesA, Bool.and_eq_true] at hv
      simp only [renderA, renameKeysA]
      exact replace_sep p ps rep cm (not_mem_pat p ps hA cm (by decide) (by decide))
        (renderV v) (renderA (JArr.cons v2 rest)) _ _
        (replace_renderV p ps rep hA hN hT hF v hv.1)
        (replace_renderA p ps rep hA hN hT hF (JArr.cons v2 rest)
          (by simp [noPatInValuesA, hv.2.1, hv.2.2]))

/-- Dict version of `replace_renderV`: each `"key":value` entry has the
textual replacement applied to the key and the values rewritten
recursively. -/
theorem replace_renderO (p : Char) (ps rep : List Char)
    (hA : ∀ c ∈ p :: ps, c.isAlpha = true ∨ c = Char.ofNat 95)
    (hN : hasOccurrence (p :: ps) "null".toList = false)
    (hT : hasOccurrence (p :: ps) "true".toList = false)
    (hF : hasOccurrence (p :: ps) "false".toList = false) :
    (kvs : JObj) → noPatInValuesO (p :: ps) kvs = true →
    pyReplaceL (p :: ps) rep (renderO kvs)
      = renderO (renameKeysO (keyReplace (p :: ps) rep) kvs)
  | JObj.nil, _ => rfl
  | JObj.cons k v JObj.nil, hv => by
      simp only [noPatInValuesO, Bool.and_eq_true] at hv
      simp only [renderO, renameKeysO]
      exact replace_entry p ps rep
        (not_mem_pat p ps hA qu (by decide) (by decide))
        (not_mem_pat p ps hA cl (by decide) (by decide)) k
        (renderV v) _ (replace_renderV p ps rep hA hN hT hF v hv.1)
  | JObj.cons k v (JObj.cons k2 v2 rest), hv => by
      simp only [noPatInValuesO, Bool.and_eq_true] at hv
      simp only [renderO, renameKeysO]
      exact replace_sep p ps rep cm (not_mem_pat p ps hA cm (by decide) (by decide))
        (qu :: k.toList ++ qu :: cl :: renderV v) (renderO (JObj.cons k2 v2 rest)) _ _
        (replace_entry p ps rep
          (not_mem_pat p ps hA qu (by decide) (by decide))
          (not_mem_pat p ps hA cl (by decide) (by decide)) k
          (renderV v) _ (replace_renderV p ps rep hA hN hT hF v hv.1))
        (replace_renderO p ps rep hA hN hT hF (JObj.cons k2 v2 rest)
          (by simp [noPatInValuesO, hv.2.1, hv.2.2]))

end

/-- String-level wrapper: `str.replace` on the rendered text of a value
with occurrence-free string values renames dict keys (through the
textual replacement) and changes nothing else. -/
theorem pyReplace_render (p : Char) (ps : List Char) (pat rep : String)
    (hpat : pat.toList = p :: ps)
    (hA : ∀ c ∈ p :: ps, c.isAlpha = true ∨ c = Char.ofNat 95)
    (hN : hasOccurrence (p :: ps) "null".toList = false)
    (hT : hasOccurrence (p :: ps) "true".toList = false)
    (hF : hasOccurrence (p :: ps) "false".toList = false)
    (v : JVal) (hv : noPatInValuesV (p :: ps) v = true) :
    pyReplace (String.mk (renderV v)) pat rep
      = String.mk (renderV (renameKeysV (keyReplace (p :: ps) rep.toList) v)) := by
  have h := replace_renderV p ps rep.toList hA hN hT hF v hv
  unfold pyReplace
  rw [hpat]
  show String.mk (pyReplaceL (p :: ps) rep.toList (String.mk (renderV v)).toList) = _
  rw [toList_mk]
  exact congrArg String.mk h

/-- Modelled from the spec (§6): the intended exact field-to-wire-name
mapping — the storage key `class_` is emitted under the external key
`class` and the storage key `sbg_cmdInclude` under `sbg:cmdInclude`,
while every other key and every value is left alone.  (The source has no
such tree-level mapping; it post-processes the serialized text, which is
what the claim is tested against.) -/
def exactWireRename : String → String :=
  fun k =>
    if k = "class_" then "class"
    else if k = "sbg_cmdInclude" then "sbg:cmdInclude" else k

set_option maxRecDepth 100000 in
/-- C5 counterexample: the global text substitution of `object2json` also
rewrites occurrences of `class_` inside values.  `"class_grade"` as a
description is emitted as `"classgrade"`, so the emitted text differs
from the render of the tree with only the key spellings mapped — value
content is altered, refuting the claim. -/
theorem c5_text_rename_counterexample :
    pyReplace "class_grade" "class_" "class" = "classgrade"
    ∧ (CwlTool.make "t" "l" none "cwl:draft-2" (some "class_grade")).object2json
      ≠ String.mk (renderV (renameKeysV exactWireRename
          (JVal.obj (cleanO (CwlTool.make "t" "l" none "cwl:draft-2"
            (some "class_grade")).toDict)))) :=
  ⟨by decide, by decide⟩

/-- C5 as amended: the emission step globally substitutes the substrings
`class_` and `sbg_cmdInclude` in the serialized text; provided no string
value contains either substring, this changes key spellings only — the
emitted text is exactly the render of the pruned attribute tree with
every key passed through the two textual replacements (so `class_`
becomes `class` and `sbg_cmdInclude` becomes `sbg:cmdInclude`) and all
other key and value content unchanged. -/
theorem c5_text_rename_amended (t : CwlTool)
    (h1 : noPatInValuesV ("class_".toList) (JVal.obj (cleanO t.toDict)) = true)
    (h2 : noPatInValuesV ("sbg_cmdInclude".toList) (JVal.obj (cleanO t.toDict)) = true) :
    t.object2json
      = String.mk (renderV
          (renameKeysV (keyReplace ("sbg_cmdInclude".toList) ("sbg:cmdInclude".toList))
            (renameKeysV (keyReplace ("class_".toList) ("class".toList))
              (JVal.obj (cleanO t.toDict))))) := by
  unfold CwlTool.object2json
  rw [pyReplace_render ('c') ['l', 'a', 's', 's', '_'] "class_" "class" rfl
    (by decide) (by decide) (by decide) (by decide) _ h1]
  have h2b : noPatInValuesV ("sbg_cmdInclude".toList)
      (renameKeysV (keyReplace (['c', 'l', 'a', 's', 's', '_']) ("class".toList))
        (JVal.obj (cleanO t.toDict))) = true := by
    rw [noPat_renameV]
    exact h2
  rw [pyReplace_render ('s') ['b', 'g', '_', 'c', 'm', 'd', 'I', 'n', 'c', 'l', 'u', 'd', 'e']
    "sbg_cmdInclude" "sbg:cmdInclude" rfl
    (by decide) (by decide) (by decide) (by decide) _ h2b]
  rfl

/-- Witness for C5 on a concrete descriptor whose values are free of the
replaced substrings. -/
theorem c5_text_rename_witness :
    noPatInValuesV ("class_".toList)
        (JVal.obj (cleanO (CwlTool.make "test_tool" "testing123" (some "gaurav")
          "cwl:draft-2" (some "demo")).toDict)) = true
    ∧ noPatInValuesV ("sbg_cmdInclude".toList)
        (JVal.obj (cleanO (CwlTool.make "test_tool" "testing123" (some "gaurav")
          "cwl:draft-2" (some "demo")).toDict)) = true
    ∧ (CwlTool.make "test_tool" "testing123" (some "gaurav")
          "cwl:draft-2" (some "demo")).object2json
      = String.mk (renderV
          (renameKeysV (keyReplace ("sbg_cmdInclude".toList) ("sbg:cmdInclude".toList))
            (renameKeysV (keyReplace ("class_".toList) ("class".toList))
              (JVal.obj (cleanO (CwlTool.make "test_tool" "testing123" (some "gaurav")
                "cwl:draft-2" (some "demo")).toDict))))) :=
  ⟨by decide, by decide,
   c5_text_rename_amended
     (CwlTool.make "test_tool" "testing123" (some "gaurav") "cwl:draft-2" (some "demo"))
     (by decide) (by decide)⟩
